import Mathlib

/-!
Shallow embedding of `websocket-with-heartbeat` (src/index.ts), a WebSocket
client wrapper with a heartbeat (ping/pong) mechanism, automatic reconnection
and page-visibility handling, together with a smaller embedding of the earlier
variant of the class (the file defining `CreateWebSocket`, with
`maxReconnectAttempts`).

The main model is a discrete-event semantics: the state carries the fields of
the `WebSocketWithHeartbeat` class plus the host runtime's set of live timers
(each with an absolute expiry); events are WebSocket events, timer firings,
the public API calls and visibility changes.  A timer may fire only when no
live timer has an earlier expiry, so every trace of the model is feasible in
real time.
-/

namespace WSHB

/-- `messageType` option: `'json' | 'binary'`. -/
inductive MessageType
  | json
  | binary
deriving DecidableEq, Repr

/-- The merged (`Required<WebSocketOptions>`) option record. -/
structure Options where
  heartbeatInterval : Int
  reconnectDelay : Int
  timeout : Int
  debug : Bool
  messageType : MessageType
deriving DecidableEq, Repr

/-- The caller-supplied `WebSocketOptions` object (every field optional). -/
structure OptionsIn where
  heartbeatInterval : Option Int := none
  reconnectDelay : Option Int := none
  timeout : Option Int := none
  debug : Option Bool := none
  messageType : Option MessageType := none
deriving DecidableEq, Repr

/-- `defaultOptions` from the source. -/
def defaultOptions : Options :=
  { heartbeatInterval := 30 * 1000
    reconnectDelay := 5 * 1000
    timeout := 5 * 1000
    debug := false
    messageType := MessageType.json }

/-- `{ ...defaultOptions, ...options }`: object-spread merge. -/
def mergeOptions (given : OptionsIn) : Options :=
  { heartbeatInterval := given.heartbeatInterval.getD defaultOptions.heartbeatInterval
    reconnectDelay := given.reconnectDelay.getD defaultOptions.reconnectDelay
    timeout := given.timeout.getD defaultOptions.timeout
    debug := given.debug.getD defaultOptions.debug
    messageType := given.messageType.getD defaultOptions.messageType }

/-- `url.replace(/^http/, 'ws')`: rewrite a leading `http` to `ws`. -/
def rewriteUrl (u : String) : String :=
  if "http".isPrefixOf u then "ws" ++ (u.drop 4) else u

/-- `WebSocket.readyState` values. -/
inductive ReadyState
  | CONNECTING
  | OPEN
  | CLOSING
  | CLOSED
deriving DecidableEq, Repr

/-- One underlying `WebSocket` instance (identity plus ready state). -/
structure Transport where
  wsId : Nat
  readyState : ReadyState
deriving DecidableEq, Repr

/-- The three kinds of timers the class arms. -/
inductive TKind
  | heartbeat
  | reconnect
  | preClose
deriving DecidableEq, Repr

/-- A live timer in the host runtime: handle, kind, absolute expiry, and the
period for `setInterval` timers (`none` for `setTimeout` timers). -/
structure Timer where
  id : Nat
  kind : TKind
  expire : Nat
  period : Option Nat
deriving DecidableEq, Repr

/-- The full model state: the class's private fields plus the runtime's live
timer list, fresh-handle counters and the current time. -/
structure St where
  url : String
  options : Options
  isPageVisible : Bool
  webSocket : Option Transport
  isManualClosed : Bool
  heartbeatTimer : Option Nat
  reconnectTimer : Option Nat
  preCloseTimer : Option Nat
  timers : List Timer
  nextTimerId : Nat
  nextWsId : Nat
  now : Nat
deriving DecidableEq, Repr

/-- An outgoing `WebSocketMessage` (required `type` plus an abstract payload). -/
structure OutMsg where
  ty : String
  payload : Nat
deriving DecidableEq, Repr

/-- A frame written to the transport: a JSON text frame or a JSON `Blob`. -/
inductive Frame
  | text (m : OutMsg)
  | blob (m : OutMsg)
deriving DecidableEq, Repr

/-- Incoming wire data, as seen after `blob.text()` / direct access: either
text that `JSON.parse` rejects, or a JSON object with an optional `type`
field and an abstract payload. -/
inductive WireData
  | notJson
  | obj (ty : Option String) (payload : Nat)
deriving DecidableEq, Repr

/-- Tags for the `#debugLog` messages of the class. -/
inductive LogTag
  | msgSent
  | manualClose
  | connEstablished
  | msgReceived
  | heartbeatOk
  | connClosed
  | errOccurred
  | heartbeatSent
  | preCloseWarn
  | reconnecting
deriving DecidableEq, Repr

/-- Observable outputs of one event-processing step: caller callbacks, frames
written to the wire, debug log lines, and an uncaught exception escaping the
(async) handler. -/
inductive Out
  | onopen
  | onmessage (ty : Option String) (payload : Nat)
  | onclose
  | onerror
  | frame (f : Frame)
  | log (t : LogTag)
  | uncaught
deriving DecidableEq, Repr

/-- `#debugLog(...)`: emits a log line iff `options.debug`. -/
def debugLog (s : St) (t : LogTag) : List Out :=
  if s.options.debug then [Out.log t] else []

/-- `clearTimeout(id)` / `clearInterval(id)` on the runtime's timer list. -/
def removeTimer (i : Nat) (ts : List Timer) : List Timer :=
  ts.filter (fun t => t.id ≠ i)

/-- Clearing an optional stored handle (`clearTimeout(this.#x)` where the
field may be `undefined`, which is a no-op). -/
def clearOpt (h : Option Nat) (ts : List Timer) : List Timer :=
  match h with
  | some i => removeTimer i ts
  | none => ts

/-- `setTimeout(cb, delay)`: arm a fresh one-shot timer; a non-positive delay
is clamped to `0` as in the host runtime. -/
def setTimeoutT (s : St) (k : TKind) (delay : Int) : St × Nat :=
  ({ s with
      timers := s.timers ++ [{ id := s.nextTimerId, kind := k,
                               expire := s.now + delay.toNat, period := none }]
      nextTimerId := s.nextTimerId + 1 },
   s.nextTimerId)

/-- `setInterval(cb, delay)`: arm a fresh periodic timer. -/
def setIntervalT (s : St) (k : TKind) (delay : Int) : St × Nat :=
  ({ s with
      timers := s.timers ++ [{ id := s.nextTimerId, kind := k,
                               expire := s.now + delay.toNat, period := some delay.toNat }]
      nextTimerId := s.nextTimerId + 1 },
   s.nextTimerId)

/-- Is the attached socket's `readyState` `OPEN`? -/
def readyOpen (s : St) : Bool :=
  match s.webSocket with
  | some w => w.readyState = ReadyState.OPEN
  | none => false

/-- `ws.close()` on a transport: `CONNECTING`/`OPEN` move to `CLOSING`. -/
def wsDoClose (w : Transport) : Transport :=
  match w.readyState with
  | ReadyState.CONNECTING => { w with readyState := ReadyState.CLOSING }
  | ReadyState.OPEN => { w with readyState := ReadyState.CLOSING }
  | _ => w

/-- `this.#webSocket?.close()`. -/
def closeWsField (s : St) : St :=
  match s.webSocket with
  | some w => { s with webSocket := some (wsDoClose w) }
  | none => s

/-- `#stopHeartbeat`: `clearInterval(this.#heartbeatTimer)` and reset field. -/
def stopHeartbeat (s : St) : St :=
  { s with timers := clearOpt s.heartbeatTimer s.timers, heartbeatTimer := none }

/-- `#stopReconnect`: `clearTimeout(this.#reconnectTimer)` and reset field. -/
def stopReconnect (s : St) : St :=
  { s with timers := clearOpt s.reconnectTimer s.timers, reconnectTimer := none }

/-- `#destroy`: stop both recurring timers, clear a pending pre-close timer,
and release the transport (handlers are detached, an `OPEN` socket is closed,
and the field is nulled; the model drops the detached socket). -/
def destroy (s : St) : St :=
  let s1 := stopReconnect (stopHeartbeat s)
  let s2 :=
    if s1.preCloseTimer.isSome then
      { s1 with timers := clearOpt s1.preCloseTimer s1.timers, preCloseTimer := none }
    else s1
  match s2.webSocket with
  | some _ => { s2 with webSocket := none }
  | none => s2

/-- Is the attached socket `CONNECTING` or `OPEN` (the `#connect` guard)? -/
def wsActive (s : St) : Bool :=
  match s.webSocket with
  | some w => w.readyState = ReadyState.CONNECTING ∨ w.readyState = ReadyState.OPEN
  | none => false

/-- `#connect`: no-op while a socket is `CONNECTING`/`OPEN`; otherwise destroy
the old state and attach a fresh `CONNECTING` socket with handlers bound. -/
def connect (s : St) : St :=
  if wsActive s then s
  else
    let s1 := destroy s
    { s1 with
        webSocket := some { wsId := s1.nextWsId, readyState := ReadyState.CONNECTING }
        nextWsId := s1.nextWsId + 1 }

/-- Serialization in `send`/`#sendHeartbeat`: `JSON.stringify`, wrapped in a
`Blob` when `messageType` is `'binary'`. -/
def serialize (mt : MessageType) (m : OutMsg) : Frame :=
  match mt with
  | MessageType.binary => Frame.blob m
  | MessageType.json => Frame.text m

/-- `#preClose`: log a warning and arm the probe-timeout timer, overwriting
the stored handle (the source does not clear a previously stored one). -/
def preClose (s : St) : St × List Out :=
  let outs := debugLog s LogTag.preCloseWarn
  let p := setTimeoutT s TKind.preClose s.options.timeout
  ({ p.1 with preCloseTimer := some p.2 }, outs)

/-- `#sendHeartbeat`: stop the heartbeat if the socket is not `OPEN`;
otherwise write a `{type:'ping'}` frame and arm the probe timeout. -/
def sendHeartbeat (s : St) : St × List Out :=
  if readyOpen s then
    let f := serialize s.options.messageType { ty := "ping", payload := 0 }
    let outs := [Out.frame f] ++ debugLog s LogTag.heartbeatSent
    let p := preClose s
    (p.1, outs ++ p.2)
  else (stopHeartbeat s, [])

/-- `#startHeartbeat`: stop any previous interval; if the socket is `OPEN` and
the page visible, send one probe immediately and arm the interval timer. -/
def startHeartbeat (s : St) : St × List Out :=
  let s0 := stopHeartbeat s
  if readyOpen s0 && s0.isPageVisible then
    let p := sendHeartbeat s0
    let q := setIntervalT p.1 TKind.heartbeat p.1.options.heartbeatInterval
    ({ q.1 with heartbeatTimer := some q.2 }, p.2)
  else (s0, [])

/-- `#reconnect`: clear any pending reconnect timer, then (only while the page
is visible) arm a fresh one for `reconnectDelay`. -/
def reconnect (s : St) : St :=
  let s0 := stopReconnect s
  if s0.isPageVisible then
    let p := setTimeoutT s0 TKind.reconnect s0.options.reconnectDelay
    { p.1 with reconnectTimer := some p.2 }
  else s0

/-- `#onOpen` handler body (runs once the socket's state became `OPEN`). -/
def onOpenH (s : St) : St × List Out :=
  let outs := debugLog s LogTag.connEstablished ++ [Out.onopen]
  let p := startHeartbeat (stopHeartbeat s)
  (p.1, outs ++ p.2)

/-- `#onMessage` handler body.  `JSON.parse` throwing on non-JSON input is an
uncaught rejection of the async handler; a parsed object is intercepted iff
its `type` is `'pong'` and a probe-timeout timer handle is stored, otherwise
it is handed to the caller's `onmessage`. -/
def onMessageH (s : St) (d : WireData) : St × List Out :=
  match d with
  | WireData.notJson => (s, [Out.uncaught])
  | WireData.obj ty payload =>
    let outs := debugLog s LogTag.msgReceived
    if ty = some "pong" ∧ s.preCloseTimer.isSome then
      ({ s with timers := clearOpt s.preCloseTimer s.timers, preCloseTimer := none },
       outs ++ debugLog s LogTag.heartbeatOk)
    else
      (s, outs ++ [Out.onmessage ty payload])

/-- `#onClose` handler body (runs once the socket's state became `CLOSED`). -/
def onCloseH (s : St) : St × List Out :=
  let outs := debugLog s LogTag.connClosed
  let s1 := destroy s
  let outs1 := outs ++ [Out.onclose]
  if s1.isManualClosed then (s1, outs1)
  else (reconnect s1, outs1)

/-- `#onError` handler body. -/
def onErrorH (s : St) : St × List Out :=
  let outs := debugLog s LogTag.errOccurred ++ [Out.onerror]
  if readyOpen s then (closeWsField s, outs) else (s, outs)

/-- Public `send(data)`. -/
def send (s : St) (m : OutMsg) : St × List Out :=
  if readyOpen s then
    (s, [Out.frame (serialize s.options.messageType m)] ++ debugLog s LogTag.msgSent)
  else (s, [])

/-- Public `close()`. -/
def doClose (s : St) : St × List Out :=
  let outs := debugLog s LogTag.manualClose
  (destroy { s with isManualClosed := true }, outs)

/-- Callback of the probe-timeout (`#preClose`) timer. -/
def preCloseFire (s : St) : St × List Out :=
  let s1 := closeWsField s
  ({ s1 with timers := clearOpt s1.preCloseTimer s1.timers, preCloseTimer := none }, [])

/-- Callback of the reconnect timer. -/
def reconnectFire (s : St) : St × List Out :=
  let outs := debugLog s LogTag.reconnecting
  (connect { s with isManualClosed := false }, outs)

/-- The `visibilitychange` listener registered in the constructor. -/
def visHandler (s : St) (v : Bool) : St × List Out :=
  let s0 := { s with isPageVisible := v }
  if v then (connect s0, []) else (destroy s0, [])

/-- The runtime's bookkeeping when a timer fires: a periodic timer is re-armed
one period later, a one-shot timer is retired from the live table. -/
def retireOrRearm (s : St) (t : Timer) : St :=
  match t.period with
  | some p =>
    { s with timers := s.timers.map fun u =>
        if u.id = t.id then { u with expire := t.expire + p } else u }
  | none => { s with timers := removeTimer t.id s.timers }

/-- The runtime delivering a timer firing: advance time to the expiry,
re-arm a periodic timer (or retire a one-shot one), then run the callback
the class registered for this kind of timer. -/
def fireTimer (s : St) (t : Timer) : St × List Out :=
  let s1 := retireOrRearm { s with now := t.expire } t
  match t.kind with
  | TKind.heartbeat => sendHeartbeat s1
  | TKind.preClose => preCloseFire s1
  | TKind.reconnect => reconnectFire s1

/-- Events the environment can deliver to the instance. -/
inductive Ev
  | wsOpenEv
  | wsMessageEv (d : WireData)
  | wsCloseEv
  | wsErrorEv
  | timerFireEv (i : Nat)
  | sendEv (m : OutMsg)
  | closeEv
  | visEv (v : Bool)
deriving DecidableEq, Repr

/-- Look a live timer up by handle. -/
def findTimer (s : St) (i : Nat) : Option Timer :=
  s.timers.find? (fun t => t.id = i)

/-- A timer may fire only when no live timer expires strictly earlier. -/
def minimalTimer (s : St) (t : Timer) : Bool :=
  s.timers.all (fun u => t.expire ≤ u.expire)

/-- One event-processing step.  `none` means the event is not deliverable in
this state (no socket attached / wrong ready state / no such live timer).
WebSocket events reach the instance only while a socket is attached, since
`#destroy` detaches the handlers before discarding the socket. -/
def step (s : St) (e : Ev) : Option (St × List Out) :=
  match e with
  | Ev.wsOpenEv =>
    match s.webSocket with
    | some w =>
      if w.readyState = ReadyState.CONNECTING then
        some (onOpenH { s with webSocket := some { w with readyState := ReadyState.OPEN } })
      else none
    | none => none
  | Ev.wsMessageEv d =>
    match s.webSocket with
    | some w =>
      if w.readyState = ReadyState.OPEN then some (onMessageH s d) else none
    | none => none
  | Ev.wsCloseEv =>
    match s.webSocket with
    | some w =>
      if w.readyState ≠ ReadyState.CLOSED then
        some (onCloseH { s with webSocket := some { w with readyState := ReadyState.CLOSED } })
      else none
    | none => none
  | Ev.wsErrorEv =>
    match s.webSocket with
    | some _ => some (onErrorH s)
    | none => none
  | Ev.timerFireEv i =>
    match findTimer s i with
    | some t => if minimalTimer s t then some (fireTimer s t) else none
    | none => none
  | Ev.sendEv m => some (send s m)
  | Ev.closeEv => some (doClose s)
  | Ev.visEv v => some (visHandler s v)

/-- The constructor: merge options, rewrite the url, and call `#connect`
(the `visibilitychange` listener it installs is the `visEv` event). -/
def init (url : String) (given : OptionsIn) : St :=
  connect
    { url := rewriteUrl url
      options := mergeOptions given
      isPageVisible := true
      webSocket := none
      isManualClosed := false
      heartbeatTimer := none
      reconnectTimer := none
      preCloseTimer := none
      timers := []
      nextTimerId := 0
      nextWsId := 0
      now := 0 }

/-- Run a list of events, failing if one is not deliverable. -/
def execList (s : St) (es : List Ev) : Option St :=
  match es with
  | [] => some s
  | e :: rest =>
    match step s e with
    | some p => execList p.1 rest
    | none => none

/-- Run a list of events, also collecting all outputs. -/
def execOut (s : St) (es : List Ev) : Option (St × List Out) :=
  match es with
  | [] => some (s, [])
  | e :: rest =>
    match step s e with
    | some p =>
      match execOut p.1 rest with
      | some q => some (q.1, p.2 ++ q.2)
      | none => none
    | none => none

/-- Reachability along deliverable events. -/
inductive Reach : St → St → Prop
  | refl (s : St) : Reach s s
  | tail (s s' s'' : St) (e : Ev) (out : List Out) :
      Reach s s' → step s' e = some (s'', out) → Reach s s''

/-- Reachability along deliverable events other than
`visEv true` (the page never returning to the foreground). -/
inductive ReachNoVis : St → St → Prop
  | refl (s : St) : ReachNoVis s s
  | tail (s s' s'' : St) (e : Ev) (out : List Out) :
      ReachNoVis s s' → e ≠ Ev.visEv true → step s' e = some (s'', out) →
      ReachNoVis s s''

/-- Number of live timers of a given kind. -/
def countKind (k : TKind) (ts : List Timer) : Nat :=
  (ts.filter (fun t => t.kind = k)).length

/-- Live timer handles. -/
def timerIds (s : St) : List Nat :=
  s.timers.map Timer.id

/-- `optLt o n`: the stored handle, if any, is below the fresh counter. -/
def optLt : Option Nat → Nat → Prop
  | none, _ => True
  | some i, n => i < n

instance (o : Option Nat) (n : Nat) : Decidable (optLt o n) :=
  match o with
  | none => isTrue trivial
  | some i => Nat.decLt i n

/-- Well-formedness of the runtime's timer table: live handles are pairwise
distinct and below the fresh counter, every live heartbeat-interval or
reconnect timer is the one whose handle the instance stores, and all stored
handles are below the fresh counter. -/
structure Wf (s : St) : Prop where
  nodup : (s.timers.map Timer.id).Nodup
  bound : ∀ t ∈ s.timers, t.id < s.nextTimerId
  hb : ∀ t ∈ s.timers, t.kind = TKind.heartbeat → s.heartbeatTimer = some t.id
  rc : ∀ t ∈ s.timers, t.kind = TKind.reconnect → s.reconnectTimer = some t.id
  hbLt : optLt s.heartbeatTimer s.nextTimerId
  rcLt : optLt s.reconnectTimer s.nextTimerId
  pcLt : optLt s.preCloseTimer s.nextTimerId

instance (s : St) : Decidable (Wf s) :=
  decidable_of_iff
    ((s.timers.map Timer.id).Nodup ∧
     (∀ t ∈ s.timers, t.id < s.nextTimerId) ∧
     (∀ t ∈ s.timers, t.kind = TKind.heartbeat → s.heartbeatTimer = some t.id) ∧
     (∀ t ∈ s.timers, t.kind = TKind.reconnect → s.reconnectTimer = some t.id) ∧
     optLt s.heartbeatTimer s.nextTimerId ∧
     optLt s.reconnectTimer s.nextTimerId ∧
     optLt s.preCloseTimer s.nextTimerId)
    ⟨fun ⟨a, b, c, d, e, f, g⟩ => ⟨a, b, c, d, e, f, g⟩,
     fun ⟨a, b, c, d, e, f, g⟩ => ⟨a, b, c, d, e, f, g⟩⟩

/-- `Extends s s'`: the fresh-handle counter did not shrink, and every live
timer of `s'` is either one of `s`'s or uses a handle `s` had not issued. -/
def Extends (s s' : St) : Prop :=
  s.nextTimerId ≤ s'.nextTimerId ∧
  ∀ t ∈ s'.timers, t.id ∈ timerIds s ∨ s.nextTimerId ≤ t.id

/-- A handle that was already issued but is no longer live can never become
live again: firing that handle is disabled forever. -/
def DeadOk (tid : Nat) (s : St) : Prop :=
  tid < s.nextTimerId ∧ tid ∉ timerIds s

/-- The post-`close()` shape of a state: manually closed, transport released,
all stored handles cleared, and no heartbeat-interval or reconnect timer left
live in the runtime (an orphaned probe-timeout timer may survive). -/
def ClosedDown (s : St) : Prop :=
  s.webSocket = none ∧ s.isManualClosed = true ∧
  s.heartbeatTimer = none ∧ s.reconnectTimer = none ∧ s.preCloseTimer = none ∧
  ∀ t ∈ s.timers, t.kind ≠ TKind.heartbeat ∧ t.kind ≠ TKind.reconnect

instance (s : St) : Decidable (ClosedDown s) := by
  unfold ClosedDown
  infer_instance

/-- Is an output a frame written to the wire? -/
def isFrame : Out → Bool
  | Out.frame _ => true
  | _ => false

/-! ### The earlier variant of the class (`CreateWebSocket`), which counts
reconnect attempts against `maxReconnectAttempts`. -/

/-- State of the earlier `WebSocketWithHeartbeat` variant: the resolved
options, the two timer handles, the consecutive-attempt counter and the
socket. -/
structure St2 where
  heartbeatInterval : Int
  reconnectInterval : Int
  heartbeatMessage : String
  maxReconnectAttempts : Nat
  debug : Bool
  heartbeatTimer : Option Nat
  reconnectTimer : Option Nat
  reconnectAttempts : Nat
  ws : Option Transport
  nextTimerId : Nat
  nextWsId : Nat
deriving DecidableEq, Repr

/-- Callback notifications of the earlier variant. -/
inductive Out2
  | onopen
  | onmessage
  | onclose
  | onerror
deriving DecidableEq, Repr

/-- `stopHeartbeat` of the earlier variant (guarded `clearInterval`). -/
def stopHeartbeat2 (s : St2) : St2 :=
  match s.heartbeatTimer with
  | some _ => { s with heartbeatTimer := none }
  | none => s

/-- `startHeartbeat` of the earlier variant: stop, then arm the interval. -/
def startHeartbeat2 (s : St2) : St2 :=
  let s0 := stopHeartbeat2 s
  { s0 with heartbeatTimer := some s0.nextTimerId, nextTimerId := s0.nextTimerId + 1 }

/-- `connect` of the earlier variant: attach a fresh socket. -/
def connect2 (s : St2) : St2 :=
  { s with ws := some { wsId := s.nextWsId, readyState := ReadyState.CONNECTING }
           nextWsId := s.nextWsId + 1 }

/-- `reconnect` of the earlier variant: retry only below the attempt ceiling
(`0` = unlimited), and only when no reconnect timer is already pending. -/
def reconnect2 (s : St2) : St2 :=
  if s.maxReconnectAttempts = 0 ∨ s.reconnectAttempts < s.maxReconnectAttempts then
    if s.reconnectTimer = none then
      { s with reconnectTimer := some s.nextTimerId, nextTimerId := s.nextTimerId + 1 }
    else s
  else s

/-- `onOpen` handler of the earlier variant: notify, reset the attempt
counter, start the heartbeat. -/
def onOpen2 (s : St2) : St2 × List Out2 :=
  (startHeartbeat2 { s with reconnectAttempts := 0 }, [Out2.onopen])

/-- `onClose` handler of the earlier variant: notify, stop the heartbeat and
hand off to `reconnect`. -/
def onClose2 (s : St2) : St2 × List Out2 :=
  (reconnect2 (stopHeartbeat2 s), [Out2.onclose])

/-- The reconnect timer's callback of the earlier variant: count the attempt
and reopen. -/
def reconnectTick2 (s : St2) : St2 :=
  connect2 { s with reconnectAttempts := s.reconnectAttempts + 1, reconnectTimer := none }

/-! ### Concrete states used to instantiate the theorems -/

/-- The state reached from `init "ws://x" {}` by the transport's open event:
socket open, one probe in flight, the interval timer armed. -/
def exOpen : St :=
  { url := "ws://x"
    options := defaultOptions
    isPageVisible := true
    webSocket := some { wsId := 0, readyState := ReadyState.OPEN }
    isManualClosed := false
    heartbeatTimer := some 1
    reconnectTimer := none
    preCloseTimer := some 0
    timers := [{ id := 0, kind := TKind.preClose, expire := 5000, period := none },
               { id := 1, kind := TKind.heartbeat, expire := 30000, period := some 30000 }]
    nextTimerId := 2
    nextWsId := 1
    now := 0 }

/-- The same state with the page hidden. -/
def exHidden : St :=
  { exOpen with isPageVisible := false }

/-- A quiescent backgrounded state: hidden, no socket, no timers. -/
def exDown : St :=
  { url := "ws://x"
    options := defaultOptions
    isPageVisible := false
    webSocket := none
    isManualClosed := false
    heartbeatTimer := none
    reconnectTimer := none
    preCloseTimer := none
    timers := []
    nextTimerId := 2
    nextWsId := 1
    now := 0 }

/-- An invalid option object: non-positive heartbeat interval, negative
probe timeout. -/
def badOpts : OptionsIn :=
  { heartbeatInterval := some 0, timeout := some (-5) }

/-- A fresh instance of the earlier variant with unlimited reconnects. -/
def ex2a : St2 :=
  { heartbeatInterval := 30000
    reconnectInterval := 5000
    heartbeatMessage := "ping"
    maxReconnectAttempts := 0
    debug := false
    heartbeatTimer := none
    reconnectTimer := none
    reconnectAttempts := 0
    ws := none
    nextTimerId := 0
    nextWsId := 0 }

/-- The earlier variant with `maxReconnectAttempts = 3` after three
consecutive attempts. -/
def ex2b : St2 :=
  { ex2a with maxReconnectAttempts := 3, reconnectAttempts := 3 }

/-! ### Basic facts about the timer-table primitives -/

theorem mem_of_clearOpt {t : Timer} {h : Option Nat} {ts : List Timer}
    (ht : t ∈ clearOpt h ts) : t ∈ ts := by
  cases h with
  | none => exact ht
  | some i => exact List.mem_of_mem_filter ht

theorem nodup_clearOpt {h : Option Nat} {ts : List Timer}
    (hn : (ts.map Timer.id).Nodup) : ((clearOpt h ts).map Timer.id).Nodup := by
  cases h with
  | none => exact hn
  | some i => exact (List.Sublist.map Timer.id (List.filter_sublist ts)).nodup hn

theorem clearOpt_some_ne {t : Timer} {i : Nat} {ts : List Timer}
    (ht : t ∈ clearOpt (some i) ts) : t.id ≠ i := by
  simp only [clearOpt, removeTimer, List.mem_filter, decide_eq_true_eq] at ht
  exact ht.2

theorem not_mem_clearOpt_self {i : Nat} {ts : List Timer} :
    ∀ t ∈ clearOpt (some i) ts, t.id ≠ i := fun _ ht => clearOpt_some_ne ht

/-- `destroy` in closed form: all three timers cleared, all handles and the
socket released. -/
theorem destroy_eq (s : St) :
    destroy s =
      { s with
          timers := clearOpt s.preCloseTimer
            (clearOpt s.reconnectTimer (clearOpt s.heartbeatTimer s.timers))
          heartbeatTimer := none
          reconnectTimer := none
          preCloseTimer := none
          webSocket := none } := by
  obtain ⟨url, opts, vis, ws, man, hb, rc, pc, ts, nid, nwid, now⟩ := s
  cases pc <;> cases ws <;> rfl

/-! ### Handle growth: new timers always use fresh handles -/

theorem extends_of_sub {a b : St} (hn : a.nextTimerId ≤ b.nextTimerId)
    (ht : ∀ t ∈ b.timers, t ∈ a.timers) : Extends a b :=
  ⟨hn, fun t h => Or.inl (List.mem_map_of_mem Timer.id (ht t h))⟩

theorem extends_refl (s : St) : Extends s s :=
  extends_of_sub (le_refl _) (fun _ h => h)

theorem extends_trans {a b c : St} (h1 : Extends a b) (h2 : Extends b c) :
    Extends a c := by
  obtain ⟨n1, m1⟩ := h1
  obtain ⟨n2, m2⟩ := h2
  refine ⟨le_trans n1 n2, fun t ht => ?_⟩
  rcases m2 t ht with h | h
  · rcases List.mem_map.mp h with ⟨u, hu, he⟩
    rcases m1 u hu with h' | h'
    · exact Or.inl (he ▸ h')
    · exact Or.inr (he ▸ h')
  · exact Or.inr (le_trans n1 h)

theorem extends_of_eq {a b : St} (ht : b.timers = a.timers)
    (hn : b.nextTimerId = a.nextTimerId) : Extends a b :=
  extends_of_sub hn.ge (fun _ h => ht ▸ h)

theorem extends_stopHeartbeat (s : St) : Extends s (stopHeartbeat s) :=
  extends_of_sub (by simp [stopHeartbeat])
    (by intro t ht; exact mem_of_clearOpt (by simpa [stopHeartbeat] using ht))

theorem extends_stopReconnect (s : St) : Extends s (stopReconnect s) :=
  extends_of_sub (by simp [stopReconnect])
    (by intro t ht; exact mem_of_clearOpt (by simpa [stopReconnect] using ht))

theorem extends_destroy (s : St) : Extends s (destroy s) := by
  rw [destroy_eq]
  refine extends_of_sub (by simp) ?_
  intro t ht
  simp only at ht
  exact mem_of_clearOpt (mem_of_clearOpt (mem_of_clearOpt ht))

theorem extends_connect (s : St) : Extends s (connect s) := by
  unfold connect
  split
  · exact extends_refl s
  · exact extends_trans (extends_destroy s)
      (extends_of_eq (by simp) (by simp))

theorem extends_setTimeoutT (s : St) (k : TKind) (d : Int) :
    Extends s (setTimeoutT s k d).1 := by
  refine ⟨by simp [setTimeoutT], ?_⟩
  intro t ht
  simp only [setTimeoutT, List.mem_append, List.mem_singleton] at ht
  rcases ht with h | h
  · exact Or.inl (List.mem_map_of_mem Timer.id h)
  · exact Or.inr (by simp [h])

theorem extends_setIntervalT (s : St) (k : TKind) (d : Int) :
    Extends s (setIntervalT s k d).1 := by
  refine ⟨by simp [setIntervalT], ?_⟩
  intro t ht
  simp only [setIntervalT, List.mem_append, List.mem_singleton] at ht
  rcases ht with h | h
  · exact Or.inl (List.mem_map_of_mem Timer.id h)
  · exact Or.inr (by simp [h])

theorem extends_preClose (s : St) : Extends s (preClose s).1 := by
  unfold preClose
  exact extends_trans (extends_setTimeoutT s TKind.preClose s.options.timeout)
    (extends_of_eq (by simp) (by simp))

theorem extends_sendHeartbeat (s : St) : Extends s (sendHeartbeat s).1 := by
  unfold sendHeartbeat
  split
  · exact extends_trans (extends_preClose s) (extends_of_eq rfl rfl)
  · exact extends_stopHeartbeat s

theorem extends_startHeartbeat (s : St) : Extends s (startHeartbeat s).1 := by
  unfold startHeartbeat
  dsimp only
  split
  · refine extends_trans (extends_stopHeartbeat s) ?_
    refine extends_trans (extends_sendHeartbeat (stopHeartbeat s)) ?_
    refine extends_trans
      (extends_setIntervalT (sendHeartbeat (stopHeartbeat s)).1 TKind.heartbeat
        (sendHeartbeat (stopHeartbeat s)).1.options.heartbeatInterval) ?_
    exact extends_of_eq (by simp) (by simp)
  · exact extends_stopHeartbeat s

theorem extends_reconnect (s : St) : Extends s (reconnect s) := by
  unfold reconnect
  dsimp only
  split
  · refine extends_trans (extends_stopReconnect s) ?_
    refine extends_trans
      (extends_setTimeoutT (stopReconnect s) TKind.reconnect
        (stopReconnect s).options.reconnectDelay) ?_
    exact extends_of_eq (by simp) (by simp)
  · exact extends_stopReconnect s

theorem extends_ws_update (s : St) (w : Option Transport) :
    Extends s { s with webSocket := w } :=
  extends_of_eq (by simp) (by simp)

theorem extends_closeWsField (s : St) : Extends s (closeWsField s) := by
  unfold closeWsField
  split
  · exact extends_ws_update s _
  · exact extends_refl s

theorem extends_onOpenH (s : St) : Extends s (onOpenH s).1 := by
  unfold onOpenH
  exact extends_trans (extends_stopHeartbeat s) (extends_startHeartbeat _)

theorem extends_onMessageH (s : St) (d : WireData) :
    Extends s (onMessageH s d).1 := by
  unfold onMessageH
  match d with
  | WireData.notJson => exact extends_refl s
  | WireData.obj ty payload =>
    simp only
    split
    · refine extends_of_sub (by simp) ?_
      intro t ht
      simp only at ht
      exact mem_of_clearOpt ht
    · exact extends_refl s

theorem extends_onCloseH (s : St) : Extends s (onCloseH s).1 := by
  unfold onCloseH
  dsimp only
  split
  · exact extends_destroy s
  · exact extends_trans (extends_destroy s) (extends_reconnect _)

theorem extends_onErrorH (s : St) : Extends s (onErrorH s).1 := by
  unfold onErrorH
  split
  · exact extends_closeWsField s
  · exact extends_refl s

theorem extends_send (s : St) (m : OutMsg) : Extends s (send s m).1 := by
  unfold send
  split <;> exact extends_refl s

theorem extends_doClose (s : St) : Extends s (doClose s).1 := by
  unfold doClose
  exact extends_trans (extends_of_eq (by simp) (by simp)) (extends_destroy _)

theorem extends_preCloseFire (s : St) : Extends s (preCloseFire s).1 := by
  unfold preCloseFire
  refine extends_trans (extends_closeWsField s) (extends_of_sub (by simp) ?_)
  intro t ht
  simp only at ht
  exact mem_of_clearOpt ht

theorem extends_reconnectFire (s : St) : Extends s (reconnectFire s).1 := by
  unfold reconnectFire
  exact extends_trans (extends_of_eq (by simp) (by simp)) (extends_connect _)

theorem extends_visHandler (s : St) (v : Bool) : Extends s (visHandler s v).1 := by
  unfold visHandler
  split
  · exact extends_trans (extends_of_eq (by simp) (by simp)) (extends_connect _)
  · exact extends_trans (extends_of_eq (by simp) (by simp)) (extends_destroy _)

theorem extends_retireOrRearm (s : St) (t : Timer) : Extends s (retireOrRearm s t) := by
  obtain ⟨i, k, e, p⟩ := t
  cases p with
  | none =>
    refine extends_of_sub (by simp [retireOrRearm]) ?_
    intro u hu
    simp only [retireOrRearm, removeTimer, List.mem_filter] at hu
    exact hu.1
  | some p =>
    refine ⟨by simp [retireOrRearm], ?_⟩
    intro u hu
    simp only [retireOrRearm, List.mem_map] at hu
    obtain ⟨v, hv, he⟩ := hu
    left
    have hid : u.id = v.id := by
      subst he
      split <;> rfl
    rw [hid]
    exact List.mem_map_of_mem Timer.id hv

theorem extends_fireTimer (s : St) (t : Timer) : Extends s (fireTimer s t).1 := by
  have h1 : Extends s (retireOrRearm { s with now := t.expire } t) :=
    extends_trans (extends_of_eq (by simp) (by simp))
      (extends_retireOrRearm { s with now := t.expire } t)
  obtain ⟨i, k, e, p⟩ := t
  cases k with
  | heartbeat => exact extends_trans h1 (extends_sendHeartbeat _)
  | preClose => exact extends_trans h1 (extends_preCloseFire _)
  | reconnect => exact extends_trans h1 (extends_reconnectFire _)

/-- Transporting a fact about a step's result through the equation
`some r = some (s', out)`. -/
theorem extends_of_some_eq {s s' : St} {out : List Out} {r : St × List Out}
    (h : r = (s', out)) (he : Extends s r.1) : Extends s s' := by
  cases h
  exact he

/-- Each event-processing step only grows the fresh-handle counter, and every
timer it leaves live either was live before or uses a freshly issued handle. -/
theorem extends_step {s s' : St} {e : Ev} {out : List Out}
    (h : step s e = some (s', out)) : Extends s s' := by
  cases e with
  | wsOpenEv =>
    simp only [step] at h
    split at h
    · split at h
      · exact extends_of_some_eq (Option.some.inj h)
          (extends_trans (extends_ws_update s _) (extends_onOpenH _))
      · simp at h
    · simp at h
  | wsMessageEv d =>
    simp only [step] at h
    split at h
    · split at h
      · exact extends_of_some_eq (Option.some.inj h) (extends_onMessageH s d)
      · simp at h
    · simp at h
  | wsCloseEv =>
    simp only [step] at h
    split at h
    · split at h
      · exact extends_of_some_eq (Option.some.inj h)
          (extends_trans (extends_ws_update s _) (extends_onCloseH _))
      · simp at h
    · simp at h
  | wsErrorEv =>
    simp only [step] at h
    split at h
    · exact extends_of_some_eq (Option.some.inj h) (extends_onErrorH s)
    · simp at h
  | timerFireEv i =>
    simp only [step] at h
    split at h
    · split at h
      · exact extends_of_some_eq (Option.some.inj h) (extends_fireTimer s _)
      · simp at h
    · simp at h
  | sendEv m =>
    simp only [step] at h
    exact extends_of_some_eq (Option.some.inj h) (extends_send s m)
  | closeEv =>
    simp only [step] at h
    exact extends_of_some_eq (Option.some.inj h) (extends_doClose s)
  | visEv v =>
    simp only [step] at h
    exact extends_of_some_eq (Option.some.inj h) (extends_visHandler s v)

theorem deadOk_of_extends {tid : Nat} {s s' : St}
    (hd : DeadOk tid s) (he : Extends s s') : DeadOk tid s' := by
  obtain ⟨hlt, hni⟩ := hd
  obtain ⟨hn, hm⟩ := he
  refine ⟨lt_of_lt_of_le hlt hn, fun hmem => ?_⟩
  rcases List.mem_map.mp hmem with ⟨u, hu, he⟩
  rcases hm u hu with h | h
  · exact hni (he ▸ h)
  · exact absurd (he ▸ h) (by omega)

theorem deadOk_step {tid : Nat} {s s' : St} {e : Ev} {out : List Out}
    (hd : DeadOk tid s) (h : step s e = some (s', out)) : DeadOk tid s' :=
  deadOk_of_extends hd (extends_step h)

theorem deadOk_reach {tid : Nat} {s s' : St}
    (hd : DeadOk tid s) (h : Reach s s') : DeadOk tid s' := by
  induction h with
  | refl => exact hd
  | tail a b e out _ hstep ih => exact deadOk_step ih hstep

/-- Firing a dead handle is not a deliverable event. -/
theorem step_fire_dead {tid : Nat} {s : St} (hd : DeadOk tid s) :
    step s (Ev.timerFireEv tid) = none := by
  have hf : findTimer s tid = none := by
    unfold findTimer
    apply List.find?_eq_none.mpr
    intro t ht hb
    exact hd.2 (by
      have hτ : t.id = tid := by simpa using hb
      exact hτ ▸ List.mem_map_of_mem Timer.id ht)
  simp only [step, hf]

/-! ### Preservation of well-formedness -/

theorem optLt_mono {o : Option Nat} {n m : Nat} (h : optLt o n) (hnm : n ≤ m) :
    optLt o m := by
  cases o with
  | none => trivial
  | some i => exact lt_of_lt_of_le h hnm

theorem not_mem_ids_self {s : St}
    (h2 : ∀ t ∈ s.timers, t.id < s.nextTimerId) :
    s.nextTimerId ∉ s.timers.map Timer.id := by
  intro hm
  rcases List.mem_map.mp hm with ⟨u, hu, he⟩
  exact absurd (he ▸ h2 u hu) (lt_irrefl _)

/-- `Wf` only looks at the timer table, the fresh counter and the three
stored handles. -/
theorem wf_congr {s s' : St} (h : Wf s) (ht : s'.timers = s.timers)
    (hn : s'.nextTimerId = s.nextTimerId)
    (hh : s'.heartbeatTimer = s.heartbeatTimer)
    (hr : s'.reconnectTimer = s.reconnectTimer)
    (hp : s'.preCloseTimer = s.preCloseTimer) : Wf s' := by
  refine ⟨?_, ?_, ?_, ?_, ?_, ?_, ?_⟩
  · rw [ht]; exact h.nodup
  · rw [ht, hn]; exact h.bound
  · rw [ht, hh]; exact h.hb
  · rw [ht, hr]; exact h.rc
  · rw [hh, hn]; exact h.hbLt
  · rw [hr, hn]; exact h.rcLt
  · rw [hp, hn]; exact h.pcLt

theorem wf_stopHeartbeat {s : St} (h : Wf s) : Wf (stopHeartbeat s) := by
  refine ⟨?_, ?_, ?_, ?_, trivial, ?_, ?_⟩
  · exact nodup_clearOpt h.nodup
  · intro t ht
    exact h.bound t (mem_of_clearOpt ht)
  · intro t ht hk
    cases hh : s.heartbeatTimer with
    | none => exact absurd (hh ▸ h.hb t (mem_of_clearOpt ht) hk) (by simp)
    | some i =>
      have ht' : t ∈ clearOpt (some i) s.timers := by
        have : (stopHeartbeat s).timers = clearOpt (some i) s.timers := by
          simp [stopHeartbeat, hh]
        exact this ▸ ht
      exact absurd (Option.some.inj (hh ▸ h.hb t (mem_of_clearOpt ht) hk)).symm
        (clearOpt_some_ne ht')
  · intro t ht hk
    exact h.rc t (mem_of_clearOpt ht) hk
  · exact h.rcLt
  · exact h.pcLt

theorem wf_stopReconnect {s : St} (h : Wf s) : Wf (stopReconnect s) := by
  refine ⟨?_, ?_, ?_, ?_, ?_, trivial, ?_⟩
  · exact nodup_clearOpt h.nodup
  · intro t ht
    exact h.bound t (mem_of_clearOpt ht)
  · intro t ht hk
    exact h.hb t (mem_of_clearOpt ht) hk
  · intro t ht hk
    cases hh : s.reconnectTimer with
    | none => exact absurd (hh ▸ h.rc t (mem_of_clearOpt ht) hk) (by simp)
    | some i =>
      have ht' : t ∈ clearOpt (some i) s.timers := by
        have : (stopReconnect s).timers = clearOpt (some i) s.timers := by
          simp [stopReconnect, hh]
        exact this ▸ ht
      exact absurd (Option.some.inj (hh ▸ h.rc t (mem_of_clearOpt ht) hk)).symm
        (clearOpt_some_ne ht')
  · exact h.hbLt
  · exact h.pcLt

theorem wf_destroy {s : St} (h : Wf s) : Wf (destroy s) := by
  rw [destroy_eq]
  have hsh := wf_stopReconnect (wf_stopHeartbeat h)
  refine ⟨?_, ?_, ?_, ?_, trivial, trivial, trivial⟩
  · exact nodup_clearOpt hsh.nodup
  · intro t ht
    exact hsh.bound t (mem_of_clearOpt ht)
  · intro t ht hk
    exact absurd (hsh.hb t (mem_of_clearOpt ht) hk) (by simp [stopHeartbeat, stopReconnect])
  · intro t ht hk
    exact absurd (hsh.rc t (mem_of_clearOpt ht) hk) (by simp [stopHeartbeat, stopReconnect])

theorem wf_connect {s : St} (h : Wf s) : Wf (connect s) := by
  unfold connect
  split
  · exact h
  · exact wf_congr (wf_destroy h) rfl rfl rfl rfl rfl

theorem wf_closeWsField {s : St} (h : Wf s) : Wf (closeWsField s) := by
  unfold closeWsField
  split
  · exact wf_congr h rfl rfl rfl rfl rfl
  · exact h

/-- Arming the probe-timeout timer preserves well-formedness (the new timer's
kind is tracked by no uniqueness condition). -/
theorem wf_preClose {s : St} (h : Wf s) : Wf (preClose s).1 := by
  unfold preClose setTimeoutT
  dsimp only
  refine ⟨?_, ?_, ?_, ?_, ?_, ?_, ?_⟩
  · simp only [List.map_append, List.map_cons, List.map_nil]
    simp [List.nodup_append, h.nodup, not_mem_ids_self h.bound]
  · intro t ht
    rcases List.mem_append.mp ht with h' | h'
    · exact lt_trans (h.bound t h') (Nat.lt_succ_self _)
    · simp only [List.mem_singleton] at h'
      subst h'
      exact Nat.lt_succ_self _
  · intro t ht hk
    rcases List.mem_append.mp ht with h' | h'
    · exact h.hb t h' hk
    · simp only [List.mem_singleton] at h'
      subst h'
      simp at hk
  · intro t ht hk
    rcases List.mem_append.mp ht with h' | h'
    · exact h.rc t h' hk
    · simp only [List.mem_singleton] at h'
      subst h'
      simp at hk
  · exact optLt_mono h.hbLt (Nat.le_succ _)
  · exact optLt_mono h.rcLt (Nat.le_succ _)
  · exact Nat.lt_succ_self _

theorem wf_sendHeartbeat {s : St} (h : Wf s) : Wf (sendHeartbeat s).1 := by
  unfold sendHeartbeat
  split
  · exact wf_preClose h
  · exact wf_stopHeartbeat h

/-- `sendHeartbeat` never touches the stored heartbeat handle except to clear
it, so it keeps the handle `none` when it was `none`. -/
theorem sendHeartbeat_hb_none {s : St} (h : s.heartbeatTimer = none) :
    (sendHeartbeat s).1.heartbeatTimer = none := by
  unfold sendHeartbeat
  split
  · simpa [preClose, setTimeoutT] using h
  · simp [stopHeartbeat]

theorem wf_startHeartbeat {s : St} (h : Wf s) : Wf (startHeartbeat s).1 := by
  unfold startHeartbeat
  dsimp only
  split
  · -- arming the interval timer on the state left by `sendHeartbeat`
    set s1 := (sendHeartbeat (stopHeartbeat s)).1 with hs1
    have h1 : Wf s1 := wf_sendHeartbeat (wf_stopHeartbeat h)
    have hnone : s1.heartbeatTimer = none :=
      sendHeartbeat_hb_none (by simp [stopHeartbeat])
    unfold setIntervalT
    dsimp only
    refine ⟨?_, ?_, ?_, ?_, ?_, ?_, ?_⟩
    · simp only [List.map_append, List.map_cons, List.map_nil]
      simp [List.nodup_append, h1.nodup, not_mem_ids_self h1.bound]
    · intro t ht
      rcases List.mem_append.mp ht with h' | h'
      · exact lt_trans (h1.bound t h') (Nat.lt_succ_self _)
      · simp only [List.mem_singleton] at h'
        subst h'
        exact Nat.lt_succ_self _
    · intro t ht hk
      rcases List.mem_append.mp ht with h' | h'
      · exact absurd (h1.hb t h' hk) (by simp [hnone])
      · simp only [List.mem_singleton] at h'
        subst h'
        rfl
    · intro t ht hk
      rcases List.mem_append.mp ht with h' | h'
      · exact h1.rc t h' hk
      · simp only [List.mem_singleton] at h'
        subst h'
        simp at hk
    · exact Nat.lt_succ_self _
    · exact optLt_mono h1.rcLt (Nat.le_succ _)
    · exact optLt_mono h1.pcLt (Nat.le_succ _)
  · exact wf_stopHeartbeat h

theorem wf_reconnect {s : St} (h : Wf s) : Wf (reconnect s) := by
  unfold reconnect
  dsimp only
  split
  · set s1 := stopReconnect s with hs1
    have h1 : Wf s1 := wf_stopReconnect h
    have hnone : s1.reconnectTimer = none := by simp [hs1, stopReconnect]
    unfold setTimeoutT
    dsimp only
    refine ⟨?_, ?_, ?_, ?_, ?_, ?_, ?_⟩
    · simp only [List.map_append, List.map_cons, List.map_nil]
      simp [List.nodup_append, h1.nodup, not_mem_ids_self h1.bound]
    · intro t ht
      rcases List.mem_append.mp ht with h' | h'
      · exact lt_trans (h1.bound t h') (Nat.lt_succ_self _)
      · simp only [List.mem_singleton] at h'
        subst h'
        exact Nat.lt_succ_self _
    · intro t ht hk
      rcases List.mem_append.mp ht with h' | h'
      · exact h1.hb t h' hk
      · simp only [List.mem_singleton] at h'
        subst h'
        simp at hk
    · intro t ht hk
      rcases List.mem_append.mp ht with h' | h'
      · exact absurd (h1.rc t h' hk) (by simp [hnone])
      · simp only [List.mem_singleton] at h'
        subst h'
        rfl
    · exact optLt_mono h1.hbLt (Nat.le_succ _)
    · exact Nat.lt_succ_self _
    · exact optLt_mono h1.pcLt (Nat.le_succ _)
  · exact wf_stopReconnect h

theorem wf_onOpenH {s : St} (h : Wf s) : Wf (onOpenH s).1 := by
  unfold onOpenH
  exact wf_startHeartbeat (wf_stopHeartbeat h)

theorem wf_onMessageH {s : St} (h : Wf s) (d : WireData) :
    Wf (onMessageH s d).1 := by
  unfold onMessageH
  match d with
  | WireData.notJson => exact h
  | WireData.obj ty payload =>
    dsimp only
    split
    · refine ⟨?_, ?_, ?_, ?_, h.hbLt, h.rcLt, trivial⟩
      · exact nodup_clearOpt h.nodup
      · intro t ht
        exact h.bound t (mem_of_clearOpt ht)
      · intro t ht hk
        exact h.hb t (mem_of_clearOpt ht) hk
      · intro t ht hk
        exact h.rc t (mem_of_clearOpt ht) hk
    · exact h

theorem wf_onCloseH {s : St} (h : Wf s) : Wf (onCloseH s).1 := by
  unfold onCloseH
  dsimp only
  split
  · exact wf_destroy h
  · exact wf_reconnect (wf_destroy h)

theorem wf_onErrorH {s : St} (h : Wf s) : Wf (onErrorH s).1 := by
  unfold onErrorH
  split
  · exact wf_closeWsField h
  · exact h

theorem send_state (s : St) (m : OutMsg) : (send s m).1 = s := by
  unfold send
  split <;> rfl

theorem wf_doClose {s : St} (h : Wf s) : Wf (doClose s).1 := by
  unfold doClose
  exact wf_destroy (wf_congr h rfl rfl rfl rfl rfl)

theorem wf_preCloseFire {s : St} (h : Wf s) : Wf (preCloseFire s).1 := by
  unfold preCloseFire
  dsimp only
  have h1 : Wf (closeWsField s) := wf_closeWsField h
  refine ⟨?_, ?_, ?_, ?_, h1.hbLt, h1.rcLt, trivial⟩
  · exact nodup_clearOpt h1.nodup
  · intro t ht
    exact h1.bound t (mem_of_clearOpt ht)
  · intro t ht hk
    exact h1.hb t (mem_of_clearOpt ht) hk
  · intro t ht hk
    exact h1.rc t (mem_of_clearOpt ht) hk

theorem wf_reconnectFire {s : St} (h : Wf s) : Wf (reconnectFire s).1 := by
  unfold reconnectFire
  exact wf_connect (wf_congr h rfl rfl rfl rfl rfl)

theorem wf_visHandler {s : St} (h : Wf s) (v : Bool) : Wf (visHandler s v).1 := by
  unfold visHandler
  dsimp only
  split
  · exact wf_connect (wf_congr h rfl rfl rfl rfl rfl)
  · exact wf_destroy (wf_congr h rfl rfl rfl rfl rfl)

theorem wf_retireOrRearm {s : St} (h : Wf s) (t : Timer) :
    Wf (retireOrRearm s t) := by
  obtain ⟨i, k, e, p⟩ := t
  cases p with
  | none =>
    refine ⟨?_, ?_, ?_, ?_, h.hbLt, h.rcLt, h.pcLt⟩
    · exact (List.Sublist.map Timer.id (List.filter_sublist s.timers)).nodup h.nodup
    · intro u hu
      exact h.bound u (List.mem_of_mem_filter hu)
    · intro u hu hk
      exact h.hb u (List.mem_of_mem_filter hu) hk
    · intro u hu hk
      exact h.rc u (List.mem_of_mem_filter hu) hk
  | some p =>
    have hid : ∀ u : Timer,
        ((if u.id = i then { u with expire := e + p } else u) : Timer).id = u.id := by
      intro u; split <;> rfl
    have hkd : ∀ u : Timer,
        ((if u.id = i then { u with expire := e + p } else u) : Timer).kind = u.kind := by
      intro u; split <;> rfl
    refine ⟨?_, ?_, ?_, ?_, h.hbLt, h.rcLt, h.pcLt⟩
    · have : (s.timers.map fun u =>
          if u.id = i then ({ u with expire := e + p } : Timer) else u).map Timer.id
          = s.timers.map Timer.id := by
        rw [List.map_map]
        exact List.map_congr_left (fun u _ => hid u)
      simpa [retireOrRearm, this] using h.nodup
    · intro u hu
      simp only [retireOrRearm, List.mem_map] at hu
      obtain ⟨v, hv, he⟩ := hu
      have := hid v
      rw [he] at this
      rw [this]
      exact h.bound v hv
    · intro u hu hk
      simp only [retireOrRearm, List.mem_map] at hu
      obtain ⟨v, hv, he⟩ := hu
      have hi := hid v
      have hkk := hkd v
      rw [he] at hi hkk
      rw [hi]
      exact h.hb v hv (hkk ▸ hk)
    · intro u hu hk
      simp only [retireOrRearm, List.mem_map] at hu
      obtain ⟨v, hv, he⟩ := hu
      have hi := hid v
      have hkk := hkd v
      rw [he] at hi hkk
      rw [hi]
      exact h.rc v hv (hkk ▸ hk)

theorem wf_fireTimer {s : St} (h : Wf s) (t : Timer) : Wf (fireTimer s t).1 := by
  have h1 : Wf (retireOrRearm { s with now := t.expire } t) :=
    wf_retireOrRearm (show Wf { s with now := t.expire } from
      wf_congr h rfl rfl rfl rfl rfl) t
  obtain ⟨i, k, e, p⟩ := t
  cases k with
  | heartbeat => exact wf_sendHeartbeat h1
  | preClose => exact wf_preCloseFire h1
  | reconnect => exact wf_reconnectFire h1

/-- Transporting well-formedness of a step's result through the equation. -/
theorem wf_of_some_eq {s' : St} {out : List Out} {r : St × List Out}
    (h : r = (s', out)) (hw : Wf r.1) : Wf s' := by
  cases h
  exact hw

/-- Every deliverable event preserves well-formedness of the timer table. -/
theorem wf_step {s s' : St} {e : Ev} {out : List Out}
    (hw : Wf s) (h : step s e = some (s', out)) : Wf s' := by
  cases e with
  | wsOpenEv =>
    simp only [step] at h
    split at h
    · split at h
      · exact wf_of_some_eq (Option.some.inj h)
          (wf_onOpenH (wf_congr hw rfl rfl rfl rfl rfl))
      · simp at h
    · simp at h
  | wsMessageEv d =>
    simp only [step] at h
    split at h
    · split at h
      · exact wf_of_some_eq (Option.some.inj h) (wf_onMessageH hw d)
      · simp at h
    · simp at h
  | wsCloseEv =>
    simp only [step] at h
    split at h
    · split at h
      · exact wf_of_some_eq (Option.some.inj h)
          (wf_onCloseH (wf_congr hw rfl rfl rfl rfl rfl))
      · simp at h
    · simp at h
  | wsErrorEv =>
    simp only [step] at h
    split at h
    · exact wf_of_some_eq (Option.some.inj h) (wf_onErrorH hw)
    · simp at h
  | timerFireEv i =>
    simp only [step] at h
    split at h
    · split at h
      · exact wf_of_some_eq (Option.some.inj h) (wf_fireTimer hw _)
      · simp at h
    · simp at h
  | sendEv m =>
    simp only [step] at h
    refine wf_of_some_eq (Option.some.inj h) ?_
    rw [send_state]
    exact hw
  | closeEv =>
    simp only [step] at h
    exact wf_of_some_eq (Option.some.inj h) (wf_doClose hw)
  | visEv v =>
    simp only [step] at h
    exact wf_of_some_eq (Option.some.inj h) (wf_visHandler hw v)

theorem wf_reach {s s' : St} (hw : Wf s) (h : Reach s s') : Wf s' := by
  induction h with
  | refl => exact hw
  | tail a b e out _ hstep ih => exact wf_step ih hstep

theorem wf_init (url : String) (given : OptionsIn) : Wf (init url given) := by
  unfold init
  apply wf_connect
  exact ⟨by simp, by simp, by simp, by simp, trivial, trivial, trivial⟩

/-! ### Facts about `destroy`, `close()` and the closed-down shape -/

theorem destroy_fixed {s : St} (h1 : s.webSocket = none)
    (h2 : s.heartbeatTimer = none) (h3 : s.reconnectTimer = none)
    (h4 : s.preCloseTimer = none) : destroy s = s := by
  obtain ⟨u, o, v, w, m, hb, rc, pc, ts, ni, nw, no⟩ := s
  simp only at h1 h2 h3 h4
  subst h1; subst h2; subst h3; subst h4
  rfl

theorem manual_update_self {s : St} (h : s.isManualClosed = true) :
    ({ s with isManualClosed := true } : St) = s := by
  obtain ⟨u, o, v, w, m, hb, rc, pc, ts, ni, nw, no⟩ := s
  simp only at h
  subst h
  rfl

theorem no_live_hb {s : St} (h : Wf s) (hn : s.heartbeatTimer = none) :
    ∀ t ∈ s.timers, t.kind ≠ TKind.heartbeat := by
  intro t ht hk
  have hx := h.hb t ht hk
  rw [hn] at hx
  exact Option.noConfusion hx

theorem no_live_rc {s : St} (h : Wf s) (hn : s.reconnectTimer = none) :
    ∀ t ∈ s.timers, t.kind ≠ TKind.reconnect := by
  intro t ht hk
  have hx := h.rc t ht hk
  rw [hn] at hx
  exact Option.noConfusion hx

theorem closedDown_doClose {s : St} (hwf : Wf s) : ClosedDown (doClose s).1 := by
  have hw2 : Wf (destroy { s with isManualClosed := true }) :=
    wf_destroy (wf_congr hwf rfl rfl rfl rfl rfl)
  have hhb : (destroy { s with isManualClosed := true }).heartbeatTimer = none := by
    rw [destroy_eq]
  have hrc : (destroy { s with isManualClosed := true }).reconnectTimer = none := by
    rw [destroy_eq]
  refine ⟨by rw [show (doClose s).1 = destroy { s with isManualClosed := true } from rfl,
      destroy_eq], ?_, ?_, ?_, ?_, ?_⟩
  · rw [show (doClose s).1 = destroy { s with isManualClosed := true } from rfl, destroy_eq]
  · exact hhb
  · exact hrc
  · rw [show (doClose s).1 = destroy { s with isManualClosed := true } from rfl, destroy_eq]
  · intro t ht
    exact ⟨no_live_hb hw2 hhb t ht, no_live_rc hw2 hrc t ht⟩

theorem closedDown_congr {s s' : St} (h : ClosedDown s)
    (hw : s'.webSocket = s.webSocket) (hm : s'.isManualClosed = s.isManualClosed)
    (hh : s'.heartbeatTimer = s.heartbeatTimer)
    (hr : s'.reconnectTimer = s.reconnectTimer)
    (hp : s'.preCloseTimer = s.preCloseTimer) (ht : s'.timers = s.timers) :
    ClosedDown s' := by
  obtain ⟨a, b, c, d, e, f⟩ := h
  exact ⟨hw.trans a, hm.trans b, hh.trans c, hr.trans d, hp.trans e, ht ▸ f⟩

theorem closeWsField_none {s : St} (h : s.webSocket = none) : closeWsField s = s := by
  unfold closeWsField
  rw [h]

theorem closedDown_retire {s : St} (h : ClosedDown s) (t : Timer) :
    ClosedDown (retireOrRearm s t) := by
  obtain ⟨i, k, e, p⟩ := t
  obtain ⟨a, b, c, d, e', f⟩ := h
  cases p with
  | none =>
    refine ⟨a, b, c, d, e', ?_⟩
    intro u hu
    exact f u (List.mem_of_mem_filter hu)
  | some q =>
    refine ⟨a, b, c, d, e', ?_⟩
    intro u hu
    simp only [retireOrRearm, List.mem_map] at hu
    obtain ⟨v, hv, he⟩ := hu
    have hkd : u.kind = v.kind := by
      subst he
      split <;> rfl
    rw [hkd]
    exact f v hv

theorem closedDown_preCloseFire {s : St} (h : ClosedDown s) :
    ClosedDown (preCloseFire s).1 := by
  obtain ⟨a, b, c, d, e, f⟩ := h
  unfold preCloseFire
  dsimp only
  rw [closeWsField_none a]
  refine ⟨a, b, c, d, rfl, ?_⟩
  intro t ht
  rw [e] at ht
  exact f t ht

theorem closedDown_of_some_eq {s' : St} {out : List Out} {r : St × List Out}
    (h : r = (s', out)) (hc : ClosedDown r.1) : ClosedDown s' := by
  cases h
  exact hc

theorem closedDown_step {s s' : St} {e : Ev} {out : List Out}
    (hc : ClosedDown s) (hne : e ≠ Ev.visEv true) (h : step s e = some (s', out)) :
    ClosedDown s' := by
  obtain ⟨hws, hman, hhb, hrc, hpc, hkinds⟩ := hc
  cases e with
  | wsOpenEv => simp [step, hws] at h
  | wsMessageEv d => simp [step, hws] at h
  | wsCloseEv => simp [step, hws] at h
  | wsErrorEv => simp [step, hws] at h
  | timerFireEv i =>
    simp only [step] at h
    split at h
    · next t heq =>
      split at h
      · have hmem : t ∈ s.timers := List.mem_of_find?_eq_some heq
        have hki := hkinds t hmem
        obtain ⟨tid, tk, te, tp⟩ := t
        cases tk with
        | heartbeat => exact absurd rfl hki.1
        | reconnect => exact absurd rfl hki.2
        | preClose =>
          refine closedDown_of_some_eq (Option.some.inj h) ?_
          have hcd0 : ClosedDown ({ s with now := te } : St) :=
            closedDown_congr ⟨hws, hman, hhb, hrc, hpc, hkinds⟩ rfl rfl rfl rfl rfl rfl
          exact closedDown_preCloseFire (closedDown_retire hcd0 _)
      · simp at h
    · simp at h
  | sendEv m =>
    simp only [step] at h
    refine closedDown_of_some_eq (Option.some.inj h) ?_
    rw [send_state]
    exact ⟨hws, hman, hhb, hrc, hpc, hkinds⟩
  | closeEv =>
    simp only [step] at h
    refine closedDown_of_some_eq (Option.some.inj h) ?_
    show ClosedDown (destroy { s with isManualClosed := true })
    rw [manual_update_self hman, destroy_fixed hws hhb hrc hpc]
    exact ⟨hws, hman, hhb, hrc, hpc, hkinds⟩
  | visEv v =>
    cases v with
    | true => exact absurd rfl hne
    | false =>
      simp only [step] at h
      refine closedDown_of_some_eq (Option.some.inj h) ?_
      show ClosedDown (destroy { s with isPageVisible := false })
      rw [destroy_fixed (s := { s with isPageVisible := false }) hws hhb hrc hpc]
      exact closedDown_congr ⟨hws, hman, hhb, hrc, hpc, hkinds⟩ rfl rfl rfl rfl rfl rfl

/-! ### Counting live timers of one kind -/

theorem length_le_one_of_const_id {c : Nat} {l : List Timer}
    (hn : (l.map Timer.id).Nodup) (hall : ∀ t ∈ l, t.id = c) : l.length ≤ 1 := by
  match l with
  | [] => simp
  | [a] => simp
  | a :: b :: r =>
    exfalso
    have h1 : a.id = c := hall a (by simp)
    have h2 : b.id = c := hall b (by simp)
    simp only [List.map_cons, List.nodup_cons, List.mem_cons] at hn
    exact hn.1 (Or.inl (h1.trans h2.symm))

theorem countKind_hb_le_one {s : St} (h : Wf s) :
    countKind TKind.heartbeat s.timers ≤ 1 := by
  unfold countKind
  cases hh : s.heartbeatTimer with
  | none =>
    have hz : s.timers.filter (fun t => t.kind = TKind.heartbeat) = [] := by
      rw [List.filter_eq_nil_iff]
      intro t ht
      simpa using no_live_hb h hh t ht
    rw [hz]
    simp
  | some c =>
    apply length_le_one_of_const_id (c := c)
    · exact (List.Sublist.map Timer.id (List.filter_sublist s.timers)).nodup h.nodup
    · intro t ht
      have htm := List.mem_of_mem_filter ht
      have hkk : t.kind = TKind.heartbeat := by
        have := List.of_mem_filter ht
        simpa using this
      have := h.hb t htm hkk
      rw [hh] at this
      exact (Option.some.inj this).symm

theorem countKind_rc_le_one {s : St} (h : Wf s) :
    countKind TKind.reconnect s.timers ≤ 1 := by
  unfold countKind
  cases hh : s.reconnectTimer with
  | none =>
    have hz : s.timers.filter (fun t => t.kind = TKind.reconnect) = [] := by
      rw [List.filter_eq_nil_iff]
      intro t ht
      simpa using no_live_rc h hh t ht
    rw [hz]
    simp
  | some c =>
    apply length_le_one_of_const_id (c := c)
    · exact (List.Sublist.map Timer.id (List.filter_sublist s.timers)).nodup h.nodup
    · intro t ht
      have htm := List.mem_of_mem_filter ht
      have hkk : t.kind = TKind.reconnect := by
        have := List.of_mem_filter ht
        simpa using this
      have := h.rc t htm hkk
      rw [hh] at this
      exact (Option.some.inj this).symm

/-! ### Field-tracking lemmas for the handlers -/

theorem sendHeartbeat_rcT (s : St) :
    (sendHeartbeat s).1.reconnectTimer = s.reconnectTimer := by
  unfold sendHeartbeat
  split
  · simp [preClose, setTimeoutT]
  · simp [stopHeartbeat]

theorem sendHeartbeat_ws (s : St) :
    (sendHeartbeat s).1.webSocket = s.webSocket := by
  unfold sendHeartbeat
  split
  · simp [preClose, setTimeoutT]
  · simp [stopHeartbeat]

theorem startHeartbeat_rcT (s : St) :
    (startHeartbeat s).1.reconnectTimer = s.reconnectTimer := by
  unfold startHeartbeat
  dsimp only
  split
  · simp [setIntervalT, sendHeartbeat_rcT, stopHeartbeat]
  · simp [stopHeartbeat]

theorem onOpenH_rcT (s : St) :
    (onOpenH s).1.reconnectTimer = s.reconnectTimer := by
  unfold onOpenH
  dsimp only
  rw [startHeartbeat_rcT]
  simp [stopHeartbeat]

theorem onMessageH_rcT (s : St) (d : WireData) :
    (onMessageH s d).1.reconnectTimer = s.reconnectTimer := by
  unfold onMessageH
  match d with
  | WireData.notJson => rfl
  | WireData.obj ty payload =>
    dsimp only
    split <;> rfl

theorem closeWsField_rcT (s : St) :
    (closeWsField s).reconnectTimer = s.reconnectTimer := by
  unfold closeWsField
  split <;> rfl

theorem onErrorH_rcT (s : St) :
    (onErrorH s).1.reconnectTimer = s.reconnectTimer := by
  unfold onErrorH
  split
  · exact closeWsField_rcT s
  · rfl

theorem retireOrRearm_rcT (s : St) (t : Timer) :
    (retireOrRearm s t).reconnectTimer = s.reconnectTimer := by
  obtain ⟨i, k, e, p⟩ := t
  cases p <;> rfl

theorem retireOrRearm_ws (s : St) (t : Timer) :
    (retireOrRearm s t).webSocket = s.webSocket := by
  obtain ⟨i, k, e, p⟩ := t
  cases p <;> rfl

theorem preCloseFire_rcT (s : St) :
    (preCloseFire s).1.reconnectTimer = s.reconnectTimer := by
  unfold preCloseFire
  dsimp only
  exact closeWsField_rcT s

theorem connect_rcT (s : St) :
    (connect s).reconnectTimer = s.reconnectTimer ∨ (connect s).reconnectTimer = none := by
  unfold connect
  split
  · exact Or.inl rfl
  · right
    rw [show ({ destroy s with
        webSocket := some { wsId := (destroy s).nextWsId, readyState := ReadyState.CONNECTING }
        nextWsId := (destroy s).nextWsId + 1 } : St).reconnectTimer
        = (destroy s).reconnectTimer from rfl, destroy_eq]

theorem reconnect_hidden {s : St} (h : s.isPageVisible = false) :
    reconnect s = stopReconnect s := by
  unfold reconnect
  dsimp only
  rw [if_neg]
  simp [stopReconnect, h]

theorem onCloseH_rc_hidden {s : St} (h : s.isPageVisible = false) :
    (onCloseH s).1.reconnectTimer = none := by
  unfold onCloseH
  dsimp only
  have hdr : (destroy s).reconnectTimer = none := by rw [destroy_eq]
  split
  · exact hdr
  · rw [reconnect_hidden (by rw [destroy_eq]; exact h)]
    simp [stopReconnect]

/-! ### Facts about the earlier variant -/

theorem stopHeartbeat2_eq (s : St2) :
    stopHeartbeat2 s = { s with heartbeatTimer := none } := by
  obtain ⟨a, b, c, d, e, f, g, h, i, j, k⟩ := s
  cases f <;> rfl

/-! ### Claim theorems -/

/-- C4, counterexample to the claim as stated: with `debug` enabled, calling
`send` while the socket is still `Connecting` produces zero frames but also
**no** debug-log entry at all — the whole step has an empty output list, so
the claimed "debug-log side effect" of a no-op `send` does not exist. -/
theorem c4_counterexample :
    step (init "ws://x" { debug := some true }) (Ev.sendEv { ty := "chat", payload := 1 }) =
      some (init "ws://x" { debug := some true }, []) ∧
    (init "ws://x" { debug := some true }).options.debug = true ∧
    (init "ws://x" { debug := some true }).webSocket =
      some { wsId := 0, readyState := ReadyState.CONNECTING } :=
  ⟨rfl, rfl, rfl⟩

/-- C4 (amended): `send(payload)` never changes the state; iff the socket's
`readyState` is `OPEN` it writes exactly one frame, serialized per the
configured encoding (plus a debug-log line when `debug` is set); in every
other state it is a pure no-op with an empty output list — in particular it
emits no debug log. -/
theorem c4_send_amended (s : St) (m : OutMsg) :
    (send s m).1 = s ∧
    (readyOpen s = true →
      (send s m).2 = Out.frame (serialize s.options.messageType m) ::
        debugLog s LogTag.msgSent) ∧
    (readyOpen s = true → ((send s m).2.filter isFrame).length = 1) ∧
    (readyOpen s = false → (send s m).2 = []) := by
  refine ⟨send_state s m, ?_, ?_, ?_⟩
  · intro h
    unfold send
    rw [if_pos h]
    simp
  · intro h
    unfold send
    rw [if_pos h]
    by_cases hd : s.options.debug <;> simp [debugLog, isFrame, hd]
  · intro h
    unfold send
    rw [if_neg (by simp [h])]

/-- C4, witness: the amended theorem applied to the open example state and to
the freshly constructed (still connecting) instance. -/
theorem c4_send_witness :
    (send exOpen { ty := "chat", payload := 1 }).2 =
      Out.frame (serialize exOpen.options.messageType { ty := "chat", payload := 1 }) ::
        debugLog exOpen LogTag.msgSent ∧
    (send (init "ws://x" {}) { ty := "chat", payload := 1 }).2 = [] :=
  ⟨(c4_send_amended exOpen { ty := "chat", payload := 1 }).2.1 (by decide),
   (c4_send_amended (init "ws://x" {}) { ty := "chat", payload := 1 }).2.2.2 (by decide)⟩

/-- C5, counterexample to the claim as stated: a JSON frame without a `type`
field is not dropped — it is delivered to the caller's `onmessage`; and a
non-JSON frame makes `JSON.parse` throw inside the async handler (an uncaught
rejection), with no debug log for it even though `debug` is enabled. -/
theorem c5_counterexample :
    (∃ q, execOut (init "ws://x" { debug := some true })
        [Ev.wsOpenEv, Ev.wsMessageEv (WireData.obj none 5)] = some q ∧
      Out.onmessage none 5 ∈ q.2) ∧
    (∃ q, execOut (init "ws://x" { debug := some true })
        [Ev.wsOpenEv, Ev.wsMessageEv WireData.notJson] = some q ∧
      Out.uncaught ∈ q.2 ∧ Out.log LogTag.msgReceived ∉ q.2) := by
  refine ⟨⟨_, rfl, ?_⟩, ⟨_, rfl, ?_, ?_⟩⟩ <;> decide

/-- C5 (amended): non-JSON input makes the message handler throw (the parse
error escapes the async handler uncaught, with no logging and no state
change, and none of the caller's callbacks is invoked); a JSON frame without
a `type` field is not dropped but handed to `onmessage`. -/
theorem c5_malformed_amended (s : St) (p : Nat) :
    onMessageH s WireData.notJson = (s, [Out.uncaught]) ∧
    Out.onmessage none p ∈ (onMessageH s (WireData.obj none p)).2 := by
  refine ⟨rfl, ?_⟩
  unfold onMessageH
  dsimp only
  rw [if_neg (by rintro ⟨h1, -⟩; exact Option.noConfusion h1)]
  simp

/-- C6: with `maxReconnectAttempts = 0` every processed closure leaves a
reconnect timer pending (unlimited retries); with `maxReconnectAttempts = m >
0` and the consecutive attempt counter at or above `m`, a further closure
arms no reconnect timer (the handle is left exactly as it was); and a
successful open resets the attempt counter to `0`. -/
theorem c6_attempt_ceiling :
    (∀ s : St2, s.maxReconnectAttempts = 0 →
      ((onClose2 s).1.reconnectTimer).isSome = true) ∧
    (∀ (s : St2) (m : Nat), 0 < m → s.maxReconnectAttempts = m →
      m ≤ s.reconnectAttempts → (onClose2 s).1.reconnectTimer = s.reconnectTimer) ∧
    (∀ s : St2, (onOpen2 s).1.reconnectAttempts = 0) := by
  refine ⟨?_, ?_, ?_⟩
  · intro s h0
    unfold onClose2
    dsimp only
    rw [stopHeartbeat2_eq]
    unfold reconnect2
    dsimp only
    rw [if_pos (Or.inl h0)]
    split
    · rfl
    · next hne => simpa [Option.isSome_iff_ne_none] using hne
  · intro s m hm h0 hge
    have hneg : ¬(s.maxReconnectAttempts = 0 ∨
        s.reconnectAttempts < s.maxReconnectAttempts) := by omega
    unfold onClose2
    dsimp only
    rw [stopHeartbeat2_eq]
    unfold reconnect2
    rw [if_neg hneg]
  · intro s
    simp [onOpen2, startHeartbeat2, stopHeartbeat2_eq]

/-- C6, witness: the ceiling theorem applied to a fresh unlimited-retries
instance and to an instance with `maxReconnectAttempts = 3` that has already
made three consecutive attempts. -/
theorem c6_attempt_ceiling_witness :
    ((onClose2 ex2a).1.reconnectTimer).isSome = true ∧
    (onClose2 ex2b).1.reconnectTimer = ex2b.reconnectTimer ∧
    (onOpen2 ex2a).1.reconnectAttempts = 0 :=
  ⟨c6_attempt_ceiling.1 ex2a rfl,
   c6_attempt_ceiling.2.1 ex2b 3 (by decide) rfl (by decide),
   c6_attempt_ceiling.2.2 ex2a⟩

/-- C8, counterexample to the claim as stated: constructing with a
non-positive `heartbeatInterval` (and a negative `timeout`) raises no error —
the instance is built, stores the invalid values verbatim and immediately
opens a transport, so construction-time validation does not exist. -/
theorem c8_counterexample :
    (init "ws://x" badOpts).webSocket =
      some { wsId := 0, readyState := ReadyState.CONNECTING } ∧
    (init "ws://x" badOpts).options.heartbeatInterval = 0 ∧
    (init "ws://x" badOpts).options.timeout = -5 :=
  ⟨rfl, rfl, rfl⟩

/-- C8 (amended): the constructor performs no validation at all — for every
caller-supplied option object, construction succeeds, stores exactly the
spread-merged options (invalid values included) and attaches a fresh
connecting transport. -/
theorem c8_no_validation_amended (url : String) (given : OptionsIn) :
    (init url given).options = mergeOptions given ∧
    (init url given).webSocket = some { wsId := 0, readyState := ReadyState.CONNECTING } ∧
    (init url given).isManualClosed = false :=
  ⟨rfl, rfl, rfl⟩

/-- C10: `close()` emits no `onclose` callback itself (its only output is the
optional debug line), releases the transport — the handlers are detached
before the socket is closed, which the model expresses by the socket being
dropped — and afterwards a close event of the old transport is no longer
deliverable, so the caller's `onclose` is never invoked as a consequence of a
manual `close()`. -/
theorem c10_close_detaches (s : St) :
    (∀ o ∈ (doClose s).2, o ≠ Out.onclose) ∧
    (doClose s).1.webSocket = none ∧
    step (doClose s).1 Ev.wsCloseEv = none := by
  refine ⟨?_, ?_, ?_⟩
  · intro o ho
    simp only [doClose, debugLog] at ho
    split at ho
    · simp only [List.mem_singleton] at ho
      subst ho
      simp
    · simp at ho
  · rw [show (doClose s).1 = destroy { s with isManualClosed := true } from rfl, destroy_eq]
  · have hw : (doClose s).1.webSocket = none := by
      rw [show (doClose s).1 = destroy { s with isManualClosed := true } from rfl, destroy_eq]
    simp [step, hw]

/-- C1: whenever a heartbeat probe is outstanding (the probe-timeout handle
`tid` is stored), receiving a `{type:"pong"}` envelope is a deliverable event
that clears the pending probe and cancels the probe-timeout timer, and in
every state reachable afterwards the firing of that timer is not deliverable
— the liveness-failure path cannot run for that probe. -/
theorem c1_pong_cancels_probe (s : St) (w : Transport) (tid p : Nat)
    (hwf : Wf s) (hws : s.webSocket = some w) (hrs : w.readyState = ReadyState.OPEN)
    (hpc : s.preCloseTimer = some tid) :
    ∃ s' out,
      step s (Ev.wsMessageEv (WireData.obj (some "pong") p)) = some (s', out) ∧
      s'.preCloseTimer = none ∧
      tid ∉ timerIds s' ∧
      ∀ s'', Reach s' s'' → step s'' (Ev.timerFireEv tid) = none := by
  have hstep : step s (Ev.wsMessageEv (WireData.obj (some "pong") p)) =
      some (onMessageH s (WireData.obj (some "pong") p)) := by
    simp [step, hws, hrs]
  have hm : (onMessageH s (WireData.obj (some "pong") p)).1 =
      { s with timers := clearOpt s.preCloseTimer s.timers, preCloseTimer := none } := by
    unfold onMessageH
    dsimp only
    rw [if_pos ⟨rfl, by simp [hpc]⟩]
  have hnot : tid ∉ timerIds (onMessageH s (WireData.obj (some "pong") p)).1 := by
    rw [hm]
    intro hmem
    simp only [timerIds] at hmem
    rcases List.mem_map.mp hmem with ⟨u, hu, he⟩
    rw [hpc] at hu
    exact clearOpt_some_ne hu he
  have hdead : DeadOk tid (onMessageH s (WireData.obj (some "pong") p)).1 := by
    refine ⟨?_, hnot⟩
    rw [hm]
    have hx := hwf.pcLt
    rw [hpc] at hx
    exact hx
  refine ⟨(onMessageH s (WireData.obj (some "pong") p)).1,
          (onMessageH s (WireData.obj (some "pong") p)).2, ?_, ?_, hnot, ?_⟩
  · simp [hstep]
  · rw [hm]
  · intro s'' hr
    exact step_fire_dead (deadOk_reach hdead hr)

/-- C1, witness: the theorem applied to the concrete open state with probe
handle `0` outstanding and an incoming pong. -/
theorem c1_pong_witness :
    ∃ s' out,
      step exOpen (Ev.wsMessageEv (WireData.obj (some "pong") 7)) = some (s', out) ∧
      s'.preCloseTimer = none ∧
      0 ∉ timerIds s' ∧
      ∀ s'', Reach s' s'' → step s'' (Ev.timerFireEv 0) = none :=
  c1_pong_cancels_probe exOpen { wsId := 0, readyState := ReadyState.OPEN } 0 7
    (by decide) rfl rfl rfl

/-- C3, counterexample to the claim as stated: in a reachable run (open, the
first pong clears the probe), a second pong — arriving with no probe
outstanding — is not ignored: it is delivered to the caller's `onmessage` as
a `{type:"pong"}` envelope. -/
theorem c3_counterexample :
    ∃ q, execOut (init "ws://x" {})
        [Ev.wsOpenEv, Ev.wsMessageEv (WireData.obj (some "pong") 0),
         Ev.wsMessageEv (WireData.obj (some "pong") 7)] = some q ∧
      Out.onmessage (some "pong") 7 ∈ q.2 := by
  refine ⟨_, rfl, ?_⟩
  decide

/-- C3 (amended): a pong arriving while a probe-timeout timer handle is
stored is intercepted (never delivered to `onmessage`); but a pong arriving
with no probe outstanding, and every ping envelope, is passed to the caller's
`onmessage` rather than being filtered. -/
theorem c3_ping_pong_amended :
    (∀ (s : St) (p i : Nat), s.preCloseTimer = some i →
      ∀ (ty : Option String) (q : Nat),
        Out.onmessage ty q ∉ (onMessageH s (WireData.obj (some "pong") p)).2) ∧
    (∀ (s : St) (p : Nat), s.preCloseTimer = none →
      Out.onmessage (some "pong") p ∈ (onMessageH s (WireData.obj (some "pong") p)).2) ∧
    (∀ (s : St) (p : Nat),
      Out.onmessage (some "ping") p ∈ (onMessageH s (WireData.obj (some "ping") p)).2) := by
  refine ⟨?_, ?_, ?_⟩
  · intro s p i hpc ty q hmem
    unfold onMessageH at hmem
    dsimp only at hmem
    rw [if_pos ⟨rfl, by simp [hpc]⟩] at hmem
    by_cases hd : s.options.debug <;> simp [debugLog, hd] at hmem
  · intro s p hpc
    unfold onMessageH
    dsimp only
    rw [if_neg (by simp [hpc])]
    simp
  · intro s p
    unfold onMessageH
    dsimp only
    rw [if_neg (by rintro ⟨h1, -⟩; simp at h1)]
    simp

/-- C3, witness: the amended theorem applied to the open example state (probe
outstanding: pong intercepted) and to the same state with the probe cleared
(pong and ping both delivered). -/
theorem c3_ping_pong_witness :
    Out.onmessage (some "pong") 7 ∉
      (onMessageH exOpen (WireData.obj (some "pong") 7)).2 ∧
    Out.onmessage (some "pong") 7 ∈
      (onMessageH exDown (WireData.obj (some "pong") 7)).2 ∧
    Out.onmessage (some "ping") 3 ∈
      (onMessageH exDown (WireData.obj (some "ping") 3)).2 :=
  ⟨c3_ping_pong_amended.1 exOpen 7 0 rfl (some "pong") 7,
   c3_ping_pong_amended.2.1 exDown 7 rfl,
   c3_ping_pong_amended.2.2 exDown 3⟩

/-- C2, counterexample to the claim as stated: after `close()` the instance
is manually closed, yet the `visibilitychange` listener calls `#connect()`
unconditionally, so backgrounding and then re-foregrounding the page opens a
new transport — "no new transport is ever opened after close()" is false. -/
theorem c2_counterexample :
    ∃ s : St,
      execList (init "http://x" {}) [Ev.closeEv, Ev.visEv false, Ev.visEv true] = some s ∧
      s.isManualClosed = true ∧ s.webSocket.isSome = true := by
  refine ⟨_, rfl, ?_, ?_⟩ <;> decide

/-- C2 (amended): `close()` is always deliverable; it transitions to the
manually-closed state, cancels the stored heartbeat, probe-timeout and
reconnect timers (no heartbeat or reconnect timer stays live) and releases
the transport; a second `close()` re-produces exactly the same state; and
along every following run that never processes a visibility-change-to-visible
event the state stays closed down — no transport is ever opened again, a
pending reconnect timer included.  Only the `visibilitychange` handler can
reopen (the counterexample). -/
theorem c2_close_amended (s : St) (hwf : Wf s) :
    step s Ev.closeEv = some (doClose s) ∧
    ClosedDown (doClose s).1 ∧
    doClose (doClose s).1 = ((doClose s).1, debugLog (doClose s).1 LogTag.manualClose) ∧
    ∀ s'', ReachNoVis (doClose s).1 s'' → ClosedDown s'' := by
  have hcd : ClosedDown (doClose s).1 := closedDown_doClose hwf
  have doClose_fixed : ∀ x : St, ClosedDown x →
      doClose x = (x, debugLog x LogTag.manualClose) := by
    intro x hx
    obtain ⟨hws, hman, hhb, hrc, hpc, hkinds⟩ := hx
    show (destroy { x with isManualClosed := true }, debugLog x LogTag.manualClose) = _
    rw [manual_update_self hman, destroy_fixed hws hhb hrc hpc]
  refine ⟨rfl, hcd, doClose_fixed _ hcd, ?_⟩
  · intro s'' hr
    induction hr with
    | refl => exact hcd
    | tail a b e out hr' hne hstep ih => exact closedDown_step ih hne hstep

/-- C2, witness: the amended theorem applied to the concrete open state. -/
theorem c2_close_witness :
    step exOpen Ev.closeEv = some (doClose exOpen) ∧
    ClosedDown (doClose exOpen).1 ∧
    doClose (doClose exOpen).1 =
      ((doClose exOpen).1, debugLog (doClose exOpen).1 LogTag.manualClose) ∧
    ∀ s'', ReachNoVis (doClose exOpen).1 s'' → ClosedDown s'' :=
  c2_close_amended exOpen (by decide)

/-- C7, counterexample to the claim as stated: with the valid configuration
`heartbeatInterval = 1`, `timeout = 3` (both positive; probe timeout larger
than the interval), the run "open, then first interval tick" — a real-time
feasible trace, since the tick expires before the probe timeout — leaves two
probe-timeout timers live at once: `#preClose` overwrites the stored handle
without cancelling the previous timer. -/
theorem c7_counterexample :
    ∃ s : St,
      execList (init "ws://x" { heartbeatInterval := some 1, timeout := some 3 })
        [Ev.wsOpenEv, Ev.timerFireEv 1] = some s ∧
      countKind TKind.preClose s.timers = 2 ∧
      0 < (mergeOptions { heartbeatInterval := some 1, timeout := some 3 }).heartbeatInterval ∧
      0 < (mergeOptions { heartbeatInterval := some 1, timeout := some 3 }).timeout ∧
      0 < (mergeOptions { heartbeatInterval := some 1, timeout := some 3 }).reconnectDelay := by
  refine ⟨_, rfl, ?_, ?_, ?_, ?_⟩ <;> decide

/-- C7 (amended): in every state reachable from a freshly constructed
instance there is at most one live heartbeat-interval timer and at most one
live reconnect timer (in particular a second unexpected closure while a
reconnect timer is pending arms no duplicate); the analogous bound for the
probe-timeout timer fails when the probe timeout exceeds the heartbeat
interval (the counterexample). -/
theorem c7_single_timer_amended (url : String) (given : OptionsIn) (s : St)
    (h : Reach (init url given) s) :
    countKind TKind.heartbeat s.timers ≤ 1 ∧ countKind TKind.reconnect s.timers ≤ 1 :=
  have hw := wf_reach (wf_init url given) h
  ⟨countKind_hb_le_one hw, countKind_rc_le_one hw⟩

/-- C7, witness: the amended theorem applied to the freshly constructed
instance itself. -/
theorem c7_single_timer_witness :
    countKind TKind.heartbeat (init "ws://x" {}).timers ≤ 1 ∧
    countKind TKind.reconnect (init "ws://x" {}).timers ≤ 1 :=
  c7_single_timer_amended "ws://x" {} (init "ws://x" {}) (Reach.refl _)

theorem fst_of_some_eq {s' : St} {out : List Out} {r : St × List Out}
    (h : r = (s', out)) : s' = r.1 := by
  cases h
  rfl

theorem preCloseFire_ws (s : St) :
    (preCloseFire s).1.webSocket = (closeWsField s).webSocket := rfl

/-- C9: (a) an unexpected close processed while the page is hidden arms no
reconnect timer at all — the handler leaves the stored handle `none` and no
reconnect-kind timer live; (b) no step taken from a hidden state ever arms a
new reconnect timer (the handle is unchanged or cleared); (c) from a
backgrounded quiescent state (no socket, no reconnect timer live), the only
event whose processing attaches a transport is the visibility change back to
visible. -/
theorem c9_visibility_gating :
    (∀ s : St, s.isPageVisible = false → Wf s →
      (onCloseH s).1.reconnectTimer = none ∧
      ∀ t ∈ (onCloseH s).1.timers, t.kind ≠ TKind.reconnect) ∧
    (∀ (s s' : St) (e : Ev) (out : List Out), s.isPageVisible = false →
      step s e = some (s', out) →
      s'.reconnectTimer = s.reconnectTimer ∨ s'.reconnectTimer = none) ∧
    (∀ (s s' : St) (e : Ev) (out : List Out), s.webSocket = none →
      (∀ t ∈ s.timers, t.kind ≠ TKind.reconnect) →
      step s e = some (s', out) → s'.webSocket.isSome = true → e = Ev.visEv true) := by
  refine ⟨?_, ?_, ?_⟩
  · intro s hvis hwf
    have hrcn : (onCloseH s).1.reconnectTimer = none := onCloseH_rc_hidden hvis
    exact ⟨hrcn, no_live_rc (wf_onCloseH hwf) hrcn⟩
  · intro s s' e out hvis h
    cases e with
    | wsOpenEv =>
      simp only [step] at h
      split at h
      · split at h
        · rw [fst_of_some_eq (Option.some.inj h)]
          exact Or.inl (by rw [onOpenH_rcT])
        · simp at h
      · simp at h
    | wsMessageEv d =>
      simp only [step] at h
      split at h
      · split at h
        · rw [fst_of_some_eq (Option.some.inj h)]
          exact Or.inl (by rw [onMessageH_rcT])
        · simp at h
      · simp at h
    | wsCloseEv =>
      simp only [step] at h
      split at h
      · split at h
        · rw [fst_of_some_eq (Option.some.inj h)]
          exact Or.inr (onCloseH_rc_hidden hvis)
        · simp at h
      · simp at h
    | wsErrorEv =>
      simp only [step] at h
      split at h
      · rw [fst_of_some_eq (Option.some.inj h)]
        exact Or.inl (onErrorH_rcT s)
      · simp at h
    | timerFireEv i =>
      simp only [step] at h
      split at h
      · next t heq =>
        split at h
        · rw [fst_of_some_eq (Option.some.inj h)]
          obtain ⟨tid, tk, te, tp⟩ := t
          cases tk with
          | heartbeat =>
            exact Or.inl (by rw [show (fireTimer s ⟨tid, TKind.heartbeat, te, tp⟩).1
              = (sendHeartbeat (retireOrRearm { s with now := te }
                  ⟨tid, TKind.heartbeat, te, tp⟩)).1 from rfl,
              sendHeartbeat_rcT, retireOrRearm_rcT])
          | preClose =>
            exact Or.inl (by rw [show (fireTimer s ⟨tid, TKind.preClose, te, tp⟩).1
              = (preCloseFire (retireOrRearm { s with now := te }
                  ⟨tid, TKind.preClose, te, tp⟩)).1 from rfl,
              preCloseFire_rcT, retireOrRearm_rcT])
          | reconnect =>
            have hfr : (fireTimer s ⟨tid, TKind.reconnect, te, tp⟩).1
                = connect { retireOrRearm { s with now := te }
                    ⟨tid, TKind.reconnect, te, tp⟩ with isManualClosed := false } := rfl
            rw [hfr]
            rcases connect_rcT ({ retireOrRearm { s with now := te }
                ⟨tid, TKind.reconnect, te, tp⟩ with isManualClosed := false } : St)
              with hc | hc
            · exact Or.inl (hc.trans (retireOrRearm_rcT _ _))
            · exact Or.inr hc
        · simp at h
      · simp at h
    | sendEv m =>
      simp only [step] at h
      rw [fst_of_some_eq (Option.some.inj h)]
      exact Or.inl (by rw [send_state])
    | closeEv =>
      simp only [step] at h
      rw [fst_of_some_eq (Option.some.inj h)]
      exact Or.inr (by
        rw [show (doClose s).1 = destroy { s with isManualClosed := true } from rfl,
          destroy_eq])
    | visEv v =>
      simp only [step] at h
      rw [fst_of_some_eq (Option.some.inj h)]
      cases v with
      | true =>
        have hv : (visHandler s true).1 = connect { s with isPageVisible := true } := rfl
        rw [hv]
        rcases connect_rcT ({ s with isPageVisible := true } : St) with hc | hc
        · exact Or.inl hc
        · exact Or.inr hc
      | false =>
        exact Or.inr (by
          rw [show (visHandler s false).1 = destroy { s with isPageVisible := false } from rfl,
            destroy_eq])
  · intro s s' e out hws hkr h hsome
    cases e with
    | wsOpenEv => simp [step, hws] at h
    | wsMessageEv d => simp [step, hws] at h
    | wsCloseEv => simp [step, hws] at h
    | wsErrorEv => simp [step, hws] at h
    | timerFireEv i =>
      simp only [step] at h
      split at h
      · next t heq =>
        split at h
        · have hmem : t ∈ s.timers := List.mem_of_find?_eq_some heq
          rw [fst_of_some_eq (Option.some.inj h)] at hsome
          obtain ⟨tid, tk, te, tp⟩ := t
          have hwr : (retireOrRearm { s with now := te }
              ⟨tid, tk, te, tp⟩).webSocket = none := by
            rw [retireOrRearm_ws]
            simpa using hws
          cases tk with
          | heartbeat =>
            rw [show (fireTimer s ⟨tid, TKind.heartbeat, te, tp⟩).1
              = (sendHeartbeat (retireOrRearm { s with now := te }
                  ⟨tid, TKind.heartbeat, te, tp⟩)).1 from rfl,
              sendHeartbeat_ws, hwr] at hsome
            simp at hsome
          | preClose =>
            rw [show (fireTimer s ⟨tid, TKind.preClose, te, tp⟩).1
              = (preCloseFire (retireOrRearm { s with now := te }
                  ⟨tid, TKind.preClose, te, tp⟩)).1 from rfl,
              preCloseFire_ws, closeWsField_none hwr, hwr] at hsome
            simp at hsome
          | reconnect => exact absurd rfl (hkr _ hmem)
        · simp at h
      · simp at h
    | sendEv m =>
      simp only [step] at h
      rw [fst_of_some_eq (Option.some.inj h), send_state, hws] at hsome
      simp at hsome
    | closeEv =>
      simp only [step] at h
      rw [fst_of_some_eq (Option.some.inj h),
        show (doClose s).1 = destroy { s with isManualClosed := true } from rfl,
        destroy_eq] at hsome
      simp at hsome
    | visEv v =>
      cases v with
      | true => rfl
      | false =>
        simp only [step] at h
        rw [fst_of_some_eq (Option.some.inj h),
          show (visHandler s false).1 = destroy { s with isPageVisible := false } from rfl,
          destroy_eq] at hsome
        simp at hsome

/-- C9, witness: part (a) at the hidden open example state, part (b) at a
hidden state taking a `send` step, part (c) at the quiescent backgrounded
state taking the foregrounding step. -/
theorem c9_visibility_witness :
    ((onCloseH exHidden).1.reconnectTimer = none ∧
      ∀ t ∈ (onCloseH exHidden).1.timers, t.kind ≠ TKind.reconnect) ∧
    ((send exHidden { ty := "a", payload := 0 }).1.reconnectTimer =
        exHidden.reconnectTimer ∨
      (send exHidden { ty := "a", payload := 0 }).1.reconnectTimer = none) ∧
    Ev.visEv true = Ev.visEv true :=
  ⟨c9_visibility_gating.1 exHidden (by decide) (by decide),
   c9_visibility_gating.2.1 exHidden _ (Ev.sendEv { ty := "a", payload := 0 }) _
     (by decide) rfl,
   c9_visibility_gating.2.2 exDown _ (Ev.visEv true) _ (by decide) (by decide) rfl
     (by decide)⟩

end WSHB
